import Mathlib

/-!
Shallow embedding of the recurring-expense pattern detector of the
`leftover` repository (`src/lib/validation.ts` concatenation:
`RecurringExpenseDetector`, `RecurringExpenseManager`, and the merge loop of
`src/components/ui/RecurringExpensePatterns.tsx`).

Conventions of the embedding:
* JavaScript numbers are modelled as exact rationals (`ℚ`).  `Math.sqrt` is
  modelled by `Rat.sqrt`, which agrees with the real square root on perfect
  squares; every concrete evaluation below only takes square roots of
  perfect squares (variance `0`).
* Calendar dates (`new Date(...)` holding an ISO date at midnight) are
  modelled by a `CalDate` structure with JavaScript's `setDate`/`setMonth`/
  `setFullYear` overflow semantics.  `getTime()` differences divided by one
  day are modelled by differences of the civil day number `dateDays`; since
  all expense dates sit at midnight, the `Math.round` in the source is exact
  and is therefore dropped.
* `Array.prototype.sort` (an unspecified stable comparison sort) is modelled
  by `List.insertionSort` on the comparator's relation.
* The random pattern id `pattern_${Date.now()}_...` is modelled by the
  constant `"pattern"`; no claim below concerns generated ids.
-/

namespace Leftover

/-- Calendar date: year, month (0-based, as in JavaScript), day (1-based). -/
structure CalDate where
  year : Int
  month : Nat
  day : Nat
deriving DecidableEq, Repr

/-- `weekly | monthly | quarterly | yearly` (`RecurringFrequency` in `types.ts`). -/
inductive Frequency where
  | weekly
  | monthly
  | quarterly
  | yearly
deriving DecidableEq, Repr

/-- Input expense record (`Expense` in `types.ts`, fields used by the detector). -/
structure Expense where
  id : String
  description : String
  amount : ℚ
  category : String
  date : CalDate
deriving DecidableEq, Repr

/-- `RecurringExpensePattern` of `types.ts`. -/
structure RecurringExpensePattern where
  id : String
  description : String
  category : String
  averageAmount : ℚ
  frequency : Frequency
  confidence : ℚ
  expenseIds : List String
  lastOccurrence : CalDate
  nextExpectedDate : CalDate
  isConfirmed : Bool
deriving DecidableEq, Repr

/-- Gregorian leap year, as implemented by JavaScript `Date`. -/
def isLeapYear (y : Int) : Bool :=
  y % 4 = 0 && (y % 100 ≠ 0 || y % 400 = 0)

/-- Number of days of month `m` (0-based) of year `y`. -/
def daysInMonth (y : Int) (m : Nat) : Nat :=
  match m with
  | 0 => 31
  | 1 => if isLeapYear y then 29 else 28
  | 2 => 31
  | 3 => 30
  | 4 => 31
  | 5 => 30
  | 6 => 31
  | 7 => 31
  | 8 => 30
  | 9 => 31
  | 10 => 30
  | _ => 31

theorem daysInMonth_ge (y : Int) (m : Nat) : 28 ≤ daysInMonth y m := by
  unfold daysInMonth
  split <;> first | omega | split <;> omega

/-- Roll a day-of-month overflow into the following months, as the JavaScript
`Date` setters do.  `fuel` bounds the number of rolls; every roll removes at
least 28 days, so `fuel = d` always suffices (see `fixDay`). -/
def fixDayAux : Nat → Int → Nat → Nat → CalDate
  | 0, y, m, d => ⟨y, m, d⟩
  | fuel + 1, y, m, d =>
    if daysInMonth y m < d then
      if m = 11 then fixDayAux fuel (y + 1) 0 (d - 31)
      else fixDayAux fuel y (m + 1) (d - daysInMonth y m)
    else ⟨y, m, d⟩

/-- Normalisation of a day-of-month overflow, as performed by the JavaScript
`Date` setters: surplus days roll into the following months. -/
def fixDay (y : Int) (m : Nat) (d : Nat) : CalDate :=
  fixDayAux d y m d

/-- `date.setMonth(k)` for `k ≥ 0`: months roll into years, then the day
overflow is normalised. -/
def jsSetMonth (dt : CalDate) (k : Nat) : CalDate :=
  fixDay (dt.year + k / 12) (k % 12) dt.day

/-- Civil day number (days since a fixed epoch).  Any two `CalDate`s at
midnight differ by exactly `(getTime a - getTime b) / 86400000` days, so this
models `getTime()` up to an affine rescaling that cancels in every use. -/
def dateDays (dt : CalDate) : Int :=
  let m1 : Int := dt.month + 1
  let y : Int := if m1 ≤ 2 then dt.year - 1 else dt.year
  let m : Int := if m1 ≤ 2 then m1 + 12 else m1
  365 * y + Int.fdiv y 4 - Int.fdiv y 100 + Int.fdiv y 400
    + Int.fdiv (153 * (m - 3) + 2) 5 + dt.day

/-- `RecurringExpenseDetector.calculateNextExpectedDate`: advance one cadence
step (`+7` days, `+1` month, `+3` months, `+1` year) with JavaScript date
overflow semantics. -/
def calculateNextExpectedDate (lastDate : CalDate) (frequency : Frequency) : CalDate :=
  match frequency with
  | .weekly => fixDay lastDate.year lastDate.month (lastDate.day + 7)
  | .monthly => jsSetMonth lastDate (lastDate.month + 1)
  | .quarterly => jsSetMonth lastDate (lastDate.month + 3)
  | .yearly => fixDay (lastDate.year + 1) lastDate.month lastDate.day

/-- Row `i + 1` of the Levenshtein matrix of
`RecurringExpenseDetector.calculateStringSimilarity`, built from row `i`
(`prevRow`), exactly as the source fills `matrix[i+1][..]` from
`matrix[i][..]`: `matrix[i+1][0] = i+1`, interior cells by the
deletion/insertion/substitution minimum over `str1[i]`, `str2[j]`. -/
def levMatrixAux (s1 s2 : List Char) (prevRow : Nat → Nat) (i : Nat) : Nat → Nat
  | 0 => i + 1
  | j + 1 =>
    min (min (prevRow (j + 1) + 1) (levMatrixAux s1 s2 prevRow i j + 1))
      (prevRow j + if s1.getD i 'a' = s2.getD j 'a' then 0 else 1)

/-- The Levenshtein matrix of the source's dynamic program:
`levMatrix s1 s2 i j` is `matrix[i][j]` (`matrix[0][j] = j`, later rows by
`levMatrixAux`; `levMatrix_succ_succ` below restates the source's cell
recurrence verbatim). -/
def levMatrix (s1 s2 : List Char) : Nat → Nat → Nat
  | 0 => fun j => j
  | i + 1 => levMatrixAux s1 s2 (levMatrix s1 s2 i) i

/-- `RecurringExpenseDetector.calculateStringSimilarity`. -/
def calculateStringSimilarity (str1 str2 : String) : ℚ :=
  let len1 := str1.length
  let len2 := str2.length
  if len1 = 0 then (if len2 = 0 then 1 else 0)
  else if len2 = 0 then 0
  else ((max len1 len2 : ℚ) - levMatrix str1.data str2.data len1 len2) / (max len1 len2)

/-- `RecurringExpenseDetector.calculateAmountSimilarity`
(`AMOUNT_TOLERANCE = 0.15`). -/
def calculateAmountSimilarity (amount1 amount2 : ℚ) : ℚ :=
  let diff := |amount1 - amount2|
  let avg := (amount1 + amount2) / 2
  let tolerance := avg * 0.15
  if diff ≤ tolerance then 1 - diff / tolerance
  else 0

/-- `String.prototype.toLowerCase()`: lower-case the characters. -/
def strToLower (s : String) : String :=
  ⟨s.data.map Char.toLower⟩

/-- Combined similarity score of `findSimilarExpenses` (descriptions are
compared lower-cased at the call site). -/
def overallSimilarity (targetExpense expense : Expense) : ℚ :=
  calculateStringSimilarity (strToLower targetExpense.description)
      (strToLower expense.description) * 0.5
    + calculateAmountSimilarity targetExpense.amount expense.amount * 0.3
    + (if targetExpense.category = expense.category then 0.2 else 0)

/-- The filter predicate of `findSimilarExpenses`: an expense with the same id
is always kept, otherwise the combined score is compared with
`SIMILARITY_THRESHOLD = 0.8`. -/
def isSimilar (targetExpense expense : Expense) : Bool :=
  if expense.id = targetExpense.id then true
  else decide (0.8 ≤ overallSimilarity targetExpense expense)

/-- `RecurringExpenseDetector.findSimilarExpenses`. -/
def findSimilarExpenses (targetExpense : Expense) (allExpenses : List Expense) : List Expense :=
  allExpenses.filter (isSimilar targetExpense)

/-- Sort expenses by date, oldest first (`sort((a, b) => getTime a - getTime b)`;
`Array.prototype.sort` is an unspecified stable comparison sort, modelled by
insertion sort). -/
def sortByDate (expenses : List Expense) : List Expense :=
  expenses.insertionSort (fun a b => dateDays a.date ≤ dateDays b.date)

/-- Mean of the consecutive-day intervals. -/
def meanInterval (intervals : List Int) : ℚ :=
  (intervals.foldl (fun (sum : ℚ) (i : Int) => sum + (i : ℚ)) 0) / intervals.length

/-- Population variance of the intervals around their mean. -/
def varianceOf (intervals : List Int) : ℚ :=
  (intervals.foldl (fun (sum : ℚ) (i : Int) => sum + ((i : ℚ) - meanInterval intervals) ^ 2) 0)
    / intervals.length

/-- `consistencyScore = max(0, 1 - standardDeviation / avgInterval)`. -/
def consistencyScore (intervals : List Int) : ℚ :=
  max 0 (1 - Rat.sqrt (varianceOf intervals) / meanInterval intervals)

/-- The fixed frequency bands of `determineFrequency`: the band containing the
mean interval together with
`frequencyConfidence = max(0, 1 - |avg - center| / center)`. -/
def frequencyBand (avgInterval : ℚ) : Option (Frequency × ℚ) :=
  if 6 ≤ avgInterval ∧ avgInterval ≤ 8 then
    some (.weekly, max 0 (1 - |avgInterval - 7| / 7))
  else if 28 ≤ avgInterval ∧ avgInterval ≤ 35 then
    some (.monthly, max 0 (1 - |avgInterval - 30| / 30))
  else if 85 ≤ avgInterval ∧ avgInterval ≤ 95 then
    some (.quarterly, max 0 (1 - |avgInterval - 90| / 90))
  else if 360 ≤ avgInterval ∧ avgInterval ≤ 370 then
    some (.yearly, max 0 (1 - |avgInterval - 365| / 365))
  else none

/-- `RecurringExpenseDetector.determineFrequency`. -/
def determineFrequency (intervals : List Int) : Option Frequency × ℚ :=
  if intervals.length = 0 then (none, 0)
  else
    match frequencyBand (meanInterval intervals) with
    | none => (none, 0)
    | some (f, frequencyConfidence) =>
      (some f, consistencyScore intervals * 0.6 + frequencyConfidence * 0.4)

/-- Consecutive-day intervals of a cluster after sorting it by date. -/
def intervalsOf (cluster : List Expense) : List Int :=
  let sorted := sortByDate cluster
  List.zipWith (fun a b => dateDays b.date - dateDays a.date) sorted sorted.tail

/-- `RecurringExpenseDetector.analyzePattern` (`MIN_OCCURRENCES = 2`). -/
def analyzePattern (baseExpense : Expense) (similarExpenses : List Expense) :
    Option RecurringExpensePattern :=
  if similarExpenses.length < 2 then none
  else
    let sorted := sortByDate similarExpenses
    let intervals := intervalsOf similarExpenses
    match determineFrequency intervals with
    | (none, _) => none
    | (some frequency, confidence) =>
      if confidence < 0.6 then none
      else
        match sorted.getLast? with
        | none => none
        | some lastExpense =>
          some
            { id := "pattern"
              description := baseExpense.description
              category := baseExpense.category
              averageAmount :=
                (similarExpenses.foldl (fun sum e => sum + e.amount) 0)
                  / similarExpenses.length
              frequency := frequency
              confidence := confidence
              expenseIds := sorted.map (·.id)
              lastOccurrence := lastExpense.date
              nextExpectedDate := calculateNextExpectedDate lastExpense.date frequency
              isConfirmed := false }

/-- The scan loop of `RecurringExpenseDetector.detectPatterns`: iterate the
date-sorted expenses, skip processed ids, cluster around each seed, and keep
patterns whose confidence reaches `0.6`, marking all cluster ids processed. -/
def detectLoop (allExpenses : List Expense) :
    List Expense → List String → List RecurringExpensePattern
  | [], _ => []
  | expense :: rest, processed =>
    if expense.id ∈ processed then detectLoop allExpenses rest processed
    else
      let similarExpenses := findSimilarExpenses expense allExpenses
      if 2 ≤ similarExpenses.length then
        match analyzePattern expense similarExpenses with
        | some pattern =>
          if 0.6 ≤ pattern.confidence then
            pattern :: detectLoop allExpenses rest (processed ++ similarExpenses.map (·.id))
          else detectLoop allExpenses rest processed
        | none => detectLoop allExpenses rest processed
      else detectLoop allExpenses rest processed

/-- `RecurringExpenseDetector.detectPatterns`: scan, then sort the accepted
patterns by descending confidence. -/
def detectPatterns (expenses : List Expense) : List RecurringExpensePattern :=
  let sortedExpenses := sortByDate expenses
  (detectLoop sortedExpenses sortedExpenses []).insertionSort
    (fun a b => b.confidence ≤ a.confidence)

/-- One row of `RecurringExpenseDetector.getUpcomingRecurringExpenses`. -/
structure UpcomingEntry where
  pattern : RecurringExpensePattern
  daysUntilDue : Int
  isOverdue : Bool
deriving DecidableEq, Repr

/-- The map step of `getUpcomingRecurringExpenses`:
`daysUntilDue = Math.ceil((nextDate - today) / 86400000)`.  `today` is the
current instant measured in (possibly fractional) days on the `dateDays`
scale. -/
def toUpcomingEntry (today : ℚ) (pattern : RecurringExpensePattern) : UpcomingEntry :=
  let daysUntilDue : Int := ⌈(dateDays pattern.nextExpectedDate : ℚ) - today⌉
  { pattern := pattern
    daysUntilDue := daysUntilDue
    isOverdue := decide (daysUntilDue < 0) }

/-- `RecurringExpenseDetector.getUpcomingRecurringExpenses`. -/
def getUpcomingRecurringExpenses (patterns : List RecurringExpensePattern)
    (today : ℚ) : List UpcomingEntry :=
  ((patterns.filter (·.isConfirmed)).map (toUpcomingEntry today)).insertionSort
    (fun a b => a.daysUntilDue ≤ b.daysUntilDue)

/-- The duplicate test of the merge loop in
`RecurringExpensePatterns.detectPatterns`: same description, same category,
average amounts within `1.0`. -/
def isDuplicate (existing newPattern : RecurringExpensePattern) : Bool :=
  decide (existing.description = newPattern.description)
    && decide (existing.category = newPattern.category)
    && decide (|existing.averageAmount - newPattern.averageAmount| < 1)

/-- The merge loop of `RecurringExpensePatterns.detectPatterns`: start from
the existing patterns and append each detected pattern that duplicates no
existing one. -/
def mergeDetected (existingPatterns detectedPatterns : List RecurringExpensePattern) :
    List RecurringExpensePattern :=
  detectedPatterns.foldl
    (fun allPatterns newPattern =>
      if existingPatterns.any (fun ex => isDuplicate ex newPattern) then allPatterns
      else allPatterns ++ [newPattern])
    existingPatterns

/-- The in-place mutation `updatePatternAfterExpense` performs on the found
pattern: `pattern.lastOccurrence = newExpenseDate` and
`pattern.nextExpectedDate = calculateNextExpectedDate(newExpenseDate,
pattern.frequency)`. -/
def advancePattern (p : RecurringExpensePattern) (newExpenseDate : CalDate) :
    RecurringExpensePattern :=
  { p with
    lastOccurrence := newExpenseDate
    nextExpectedDate := calculateNextExpectedDate newExpenseDate p.frequency }

/-- `RecurringExpenseManager.updatePatternAfterExpense`, as a transformation
of the stored pattern list: `find` locates the first pattern with the given
id, its `lastOccurrence` and `nextExpectedDate` are updated in place, and the
list is saved back (an absent id changes nothing). -/
def updatePatternAfterExpense : List RecurringExpensePattern → String → CalDate →
    List RecurringExpensePattern
  | [], _, _ => []
  | p :: ps, patternId, newExpenseDate =>
    if p.id = patternId then advancePattern p newExpenseDate :: ps
    else p :: updatePatternAfterExpense ps patternId newExpenseDate

/-- Classic Levenshtein distance (insertion, deletion, substitution each of
cost 1), written as the textbook recursion: the reference definition used to
state the specification's description of `stringSimilarity`. -/
def levenshtein : List Char → List Char → Nat
  | [], ys => ys.length
  | x :: xs, [] => (x :: xs).length
  | x :: xs, y :: ys =>
    min (min (levenshtein xs (y :: ys) + 1) (levenshtein (x :: xs) ys + 1))
      (levenshtein xs ys + if x = y then 0 else 1)
termination_by xs ys => (xs, ys)

/-- The specification's `stringSimilarity`: normalized case-insensitive
Levenshtein similarity, with `stringSimilarity("", "") = 1`. -/
def specStringSimilarity (a b : String) : ℚ :=
  let a' := strToLower a
  let b' := strToLower b
  let maxLen := max a'.length b'.length
  if maxLen = 0 then 1
  else ((maxLen : ℚ) - levenshtein a'.data b'.data) / maxLen

/-- `stringSimilarity` as used by the detector: both descriptions are
lower-cased before the edit-distance computation. -/
def stringSimilarity (a b : String) : ℚ :=
  calculateStringSimilarity (strToLower a) (strToLower b)

/-! ### Concrete instances used in witnesses and counterexamples -/

/-- Seed of the first cluster: description `"aaaa"`. -/
def exA : Expense := ⟨"a", "aaaa", 100, "food", ⟨2023, 0, 1⟩⟩

/-- Similar to both `exA` and `exC` (description `"aaab"`), 30 days after `exA`. -/
def exB : Expense := ⟨"b", "aaab", 100, "food", ⟨2023, 0, 31⟩⟩

/-- Similar to `exB` but not to `exA` (description `"aabb"`), 30 days after `exB`. -/
def exC : Expense := ⟨"c", "aabb", 100, "food", ⟨2023, 2, 2⟩⟩

/-- Two expenses on the same calendar date (degenerate cluster). -/
def exS1 : Expense := ⟨"s1", "spotify", 10, "entertainment", ⟨2024, 0, 5⟩⟩

/-- Second same-date expense. -/
def exS2 : Expense := ⟨"s2", "spotify", 10, "entertainment", ⟨2024, 0, 5⟩⟩

/-- A confirmed pattern whose next expected date (2024-01-07) lies 3 days
before `c8Today`. -/
def pOverdue : RecurringExpensePattern :=
  ⟨"po", "Gym", "health", 50, .monthly, 0.9, ["g1", "g2"], ⟨2023, 11, 7⟩, ⟨2024, 0, 7⟩, true⟩

/-- A confirmed pattern whose next expected date (2024-01-15) lies 5 days
after `c8Today`. -/
def pFuture : RecurringExpensePattern :=
  ⟨"pf", "Netflix", "entertainment", 16, .monthly, 0.8, ["n1", "n2"], ⟨2023, 11, 15⟩,
    ⟨2024, 0, 15⟩, true⟩

/-- An unconfirmed pattern, which `upcoming` must drop. -/
def pUnconfirmed : RecurringExpensePattern :=
  ⟨"pu", "Rent", "housing", 900, .monthly, 0.7, ["r1", "r2"], ⟨2023, 11, 20⟩,
    ⟨2024, 0, 20⟩, false⟩

/-- The projection instant: midnight of 2024-01-10, on the `dateDays` scale. -/
def c8Today : ℚ := (dateDays ⟨2024, 0, 10⟩ : ℚ)

/-- Stored pattern of the merge example: Netflix at average 15.99. -/
def netflixExisting : RecurringExpensePattern :=
  ⟨"e1", "Netflix", "entertainment", 15.99, .monthly, 0.9, ["a", "b"], ⟨2024, 0, 1⟩,
    ⟨2024, 1, 1⟩, true⟩

/-- Freshly detected pattern of the merge example: Netflix at average 15.50. -/
def netflixDetected : RecurringExpensePattern :=
  ⟨"d1", "Netflix", "entertainment", 15.50, .monthly, 0.85, ["c", "d"], ⟨2024, 0, 3⟩,
    ⟨2024, 1, 3⟩, false⟩

/-- The pattern that `detectPatterns [exA, exB, exC]` produces for the seed
`exA` (cluster `[exA, exB]`, 30-day interval, confidence `1`). -/
def exPatternAB : RecurringExpensePattern :=
  ⟨"pattern", "aaaa", "food", 100, .monthly, 1, ["a", "b"], ⟨2023, 0, 31⟩, ⟨2023, 2, 3⟩, false⟩

/-- The pattern that `detectPatterns [exA, exB, exC]` produces for the seed
`exC` (cluster `[exB, exC]`, 30-day interval, confidence `1`) — it re-uses
`exB`, which the first pattern already claimed. -/
def exPatternBC : RecurringExpensePattern :=
  ⟨"pattern", "aabb", "food", 100, .monthly, 1, ["b", "c"], ⟨2023, 2, 2⟩, ⟨2023, 3, 2⟩, false⟩

/-- A stored pattern untouched by the update example. -/
def mgrKeep : RecurringExpensePattern :=
  ⟨"p1", "Gym", "health", 50, .weekly, 0.9, ["g1", "g2"], ⟨2024, 0, 8⟩, ⟨2024, 0, 15⟩, true⟩

/-- The stored pattern targeted by the update example (monthly cadence). -/
def mgrTarget : RecurringExpensePattern :=
  ⟨"p2", "Netflix", "entertainment", 15.99, .monthly, 0.95, ["n1", "n2"], ⟨2024, 0, 31⟩,
    ⟨2024, 2, 2⟩, true⟩

end Leftover

namespace Leftover

/-! ## Levenshtein distance: the dynamic program equals the textbook recursion -/

theorem lev_nil_right (xs : List Char) : levenshtein xs [] = xs.length := by
  cases xs <;> simp [levenshtein]

theorem levMatrix_zero_left (s1 s2 : List Char) (j : Nat) : levMatrix s1 s2 0 j = j := rfl

theorem levMatrix_succ_zero (s1 s2 : List Char) (i : Nat) :
    levMatrix s1 s2 (i + 1) 0 = i + 1 := rfl

theorem levMatrix_succ_succ (s1 s2 : List Char) (i j : Nat) :
    levMatrix s1 s2 (i + 1) (j + 1) =
      min (min (levMatrix s1 s2 i (j + 1) + 1) (levMatrix s1 s2 (i + 1) j + 1))
        (levMatrix s1 s2 i j + if s1.getD i 'a' = s2.getD j 'a' then 0 else 1) := rfl

theorem lev_snoc (p : List Char) :
    ∀ (q : List Char) (a b : Char),
      levenshtein (p ++ [a]) (q ++ [b]) =
        min (min (levenshtein p (q ++ [b]) + 1) (levenshtein (p ++ [a]) q + 1))
          (levenshtein p q + if a = b then 0 else 1) := by
  induction p with
  | nil =>
    intro q
    induction q with
    | nil =>
      intro a b
      simp [levenshtein]
    | cons y q' ihq =>
      intro a b
      have h1 := ihq a b
      simp only [List.nil_append, List.cons_append] at h1 ⊢
      simp only [levenshtein, lev_nil_right, List.length_append, List.length_cons,
        List.length_nil] at h1 ⊢
      rw [h1]
      generalize levenshtein [a] q' = B
      generalize (if a = b then 0 else 1) = cab
      generalize (if a = y then 0 else 1) = cay
      omega
  | cons x p' ih =>
    intro q
    induction q with
    | nil =>
      intro a b
      have h1 := ih [] a b
      simp only [List.nil_append, List.cons_append] at h1 ⊢
      simp only [levenshtein, lev_nil_right, List.length_append, List.length_cons,
        List.length_nil] at h1 ⊢
      rw [h1]
      generalize levenshtein p' [b] = P
      generalize (if a = b then 0 else 1) = cab
      generalize (if x = b then 0 else 1) = cxb
      omega
    | cons y q' ihq =>
      intro a b
      have h1 := ih (y :: q') a b
      have h2 := ihq a b
      have h3 := ih q' a b
      simp only [List.nil_append, List.cons_append] at h1 h2 h3 ⊢
      simp only [levenshtein] at h1 h2 h3 ⊢
      rw [h1, h2, h3]
      generalize levenshtein p' (y :: (q' ++ [b])) = A1
      generalize levenshtein (x :: p') (q' ++ [b]) = A2
      generalize levenshtein p' (q' ++ [b]) = A3
      generalize levenshtein (p' ++ [a]) (y :: q') = A4
      generalize levenshtein (x :: (p' ++ [a])) q' = A5
      generalize levenshtein (p' ++ [a]) q' = A6
      generalize levenshtein p' (y :: q') = A7
      generalize levenshtein (x :: p') q' = A8
      generalize levenshtein p' q' = A9
      generalize (if a = b then 0 else 1) = cab
      generalize (if x = y then 0 else 1) = cxy
      refine le_antisymm ?_ ?_ <;>
        simp only [le_min_iff, min_le_iff] <;>
        omega

theorem levMatrix_take (s1 s2 : List Char) :
    ∀ i j, i ≤ s1.length → j ≤ s2.length →
      levMatrix s1 s2 i j = levenshtein (s1.take i) (s2.take j) := by
  intro i
  induction i with
  | zero =>
    intro j hi hj
    simp [levMatrix_zero_left, levenshtein, List.length_take]
    omega
  | succ i ihi =>
    intro j
    induction j with
    | zero =>
      intro hi hj
      simp [levMatrix_succ_zero, lev_nil_right, List.length_take]
      omega
    | succ j ihj =>
      intro hi hj
      have hi' : i < s1.length := by omega
      have hj' : j < s2.length := by omega
      have h1 : s1.take (i + 1) = s1.take i ++ [s1[i]] := by
        rw [List.take_succ, List.getElem?_eq_getElem hi']
        rfl
      have h2 : s2.take (j + 1) = s2.take j ++ [s2[j]] := by
        rw [List.take_succ, List.getElem?_eq_getElem hj']
        rfl
      calc levMatrix s1 s2 (i + 1) (j + 1)
          = min (min (levMatrix s1 s2 i (j + 1) + 1) (levMatrix s1 s2 (i + 1) j + 1))
              (levMatrix s1 s2 i j +
                if s1.getD i 'a' = s2.getD j 'a' then 0 else 1) :=
            levMatrix_succ_succ s1 s2 i j
        _ = min (min (levenshtein (s1.take i) (s2.take (j + 1)) + 1)
              (levenshtein (s1.take (i + 1)) (s2.take j) + 1))
              (levenshtein (s1.take i) (s2.take j) +
                if s1[i] = s2[j] then 0 else 1) := by
            rw [ihi (j + 1) (by omega) hj, ihi j (by omega) (by omega),
              ihj (by omega) (by omega), List.getD_eq_getElem _ _ hi',
              List.getD_eq_getElem _ _ hj']
        _ = levenshtein (s1.take (i + 1)) (s2.take (j + 1)) := by
            rw [h1, h2, lev_snoc]

theorem levMatrix_full (s1 s2 : List Char) :
    levMatrix s1 s2 s1.length s2.length = levenshtein s1 s2 := by
  rw [levMatrix_take s1 s2 _ _ le_rfl le_rfl, List.take_length, List.take_length]

theorem lev_self (s : List Char) : levenshtein s s = 0 := by
  induction s with
  | nil => simp [levenshtein]
  | cons x xs ih => simp [levenshtein, ih]

end Leftover

namespace Leftover

/-! ## Similarity engine -/

theorem calculateStringSimilarity_eq (s1 s2 : String) :
    calculateStringSimilarity s1 s2 =
      if max s1.length s2.length = 0 then 1
      else (((max s1.length s2.length : Nat) : ℚ) - levenshtein s1.data s2.data)
        / ((max s1.length s2.length : Nat) : ℚ) := by
  have e1 : s1.length = s1.data.length := rfl
  have e2 : s2.length = s2.data.length := rfl
  unfold calculateStringSimilarity
  rcases Nat.eq_zero_or_pos s1.length with h1 | h1
  · rcases Nat.eq_zero_or_pos s2.length with h2 | h2
    · simp [h1, h2]
    · have hd : s1.data = [] := List.length_eq_zero.mp (e1 ▸ h1)
      have h2' : s2.length ≠ 0 := Nat.pos_iff_ne_zero.mp h2
      simp [h1, h2', hd, levenshtein, ← e2]
  · have h1' : s1.length ≠ 0 := Nat.pos_iff_ne_zero.mp h1
    rcases Nat.eq_zero_or_pos s2.length with h2 | h2
    · have hd : s2.data = [] := List.length_eq_zero.mp (e2 ▸ h2)
      simp [h1', h2, hd, lev_nil_right, ← e1]
    · have h2' : s2.length ≠ 0 := Nat.pos_iff_ne_zero.mp h2
      have hmax : max s1.length s2.length ≠ 0 := by omega
      simp only [h1', h2', hmax, if_false, if_neg, ite_false]
      rw [show levMatrix s1.data s2.data s1.length s2.length
            = levenshtein s1.data s2.data by rw [e1, e2, levMatrix_full]]
      push_cast
      ring

theorem calculateStringSimilarity_self (s : String) : calculateStringSimilarity s s = 1 := by
  have e1 : s.length = s.data.length := rfl
  unfold calculateStringSimilarity
  rcases Nat.eq_zero_or_pos s.length with h | h
  · simp [h]
  · have h' : s.length ≠ 0 := Nat.pos_iff_ne_zero.mp h
    simp only [h', if_neg, if_false, max_self]
    rw [show levMatrix s.data s.data s.length s.length = levenshtein s.data s.data by
      rw [e1, levMatrix_full]]
    rw [lev_self]
    have : (s.length : ℚ) ≠ 0 := by exact_mod_cast h'
    field_simp

theorem calculateAmountSimilarity_self (x : ℚ) (hx : 0 ≤ x) :
    calculateAmountSimilarity x x = 1 := by
  simp only [calculateAmountSimilarity]
  rw [sub_self, abs_zero, if_pos (by positivity), zero_div, sub_zero]

theorem overallSimilarity_self (e : Expense) (he : 0 < e.amount) :
    overallSimilarity e e = 1 := by
  unfold overallSimilarity
  rw [calculateStringSimilarity_self, calculateAmountSimilarity_self _ he.le, if_pos rfl]
  norm_num

end Leftover

namespace Leftover

/-- C3 (counterexample): the specification asserts that
`amountSimilarity(100, 115)` is exactly `0`; the code computes the tolerance
from the average of the two amounts (`16.125`), so the result is the small
positive value `3/43`. -/
theorem c3_counterexample :
    calculateAmountSimilarity 100 115 = 3 / 43 ∧ calculateAmountSimilarity 100 115 ≠ 0 := by
  with_unfolding_all decide

/-- C3 (amended): for positive amounts, `amountSimilarity` returns
`1 - diff/tolerance` when `diff ≤ tolerance` (with `diff = |x-y|`,
`tolerance = ((x+y)/2) * 0.15`) and `0` otherwise; it is `0` exactly at the
tolerance boundary, `1` on identical amounts, and small positive values at
`(100, 114.99)` and at `(100, 115)` — the pair `(100, 115)` lies inside the
tolerance computed from the average, so its similarity is `3/43`, not `0`. -/
theorem c3_amountSimilarity (x y : ℚ) (hx : 0 < x) (hy : 0 < y) :
    (|x - y| ≤ (x + y) / 2 * 0.15 →
      calculateAmountSimilarity x y = 1 - |x - y| / ((x + y) / 2 * 0.15)) ∧
    (¬ |x - y| ≤ (x + y) / 2 * 0.15 → calculateAmountSimilarity x y = 0) ∧
    (|x - y| = (x + y) / 2 * 0.15 → calculateAmountSimilarity x y = 0) ∧
    calculateAmountSimilarity 100 100 = 1 ∧
    0 < calculateAmountSimilarity 100 (11499 / 100) ∧
    calculateAmountSimilarity 100 115 = 3 / 43 ∧
    (0 : ℚ) < 3 / 43 := by
  refine ⟨?_, ?_, ?_, ?_, ?_, ?_, by norm_num⟩
  · intro h
    simp only [calculateAmountSimilarity]
    rw [if_pos h]
  · intro h
    simp only [calculateAmountSimilarity]
    rw [if_neg h]
  · intro h
    have htol : (0 : ℚ) < (x + y) / 2 * 0.15 := by positivity
    simp only [calculateAmountSimilarity]
    rw [if_pos h.le, h, div_self htol.ne', sub_self]
  · with_unfolding_all decide
  · with_unfolding_all decide
  · with_unfolding_all decide

/-- C3 witness: the amended theorem applied at the concrete pair `(100, 115)`,
whose difference `15` lies inside the tolerance `16.125`. -/
theorem c3_witness :
    calculateAmountSimilarity 100 115 = 1 - |(100 : ℚ) - 115| / ((100 + 115) / 2 * 0.15) :=
  (c3_amountSimilarity 100 115 (by norm_num) (by norm_num)).1 (by norm_num)

/-- C4: `stringSimilarity` equals the specification's normalized
case-insensitive Levenshtein similarity `(maxLen - editDistance) / maxLen`
(with `("", "") ↦ 1` and `(s, "") ↦ 0` for non-empty `s`), and takes the
values `1` on `("netflix", "netflix")` and `(7-1)/7 = 6/7` on
`("netflix", "netflex")`. -/
theorem c4_stringSimilarity (a b : String) :
    stringSimilarity a b = specStringSimilarity a b ∧
    stringSimilarity "" "" = 1 ∧
    (a.data ≠ [] → stringSimilarity a "" = 0) ∧
    stringSimilarity "netflix" "netflix" = 1 ∧
    stringSimilarity "netflix" "netflex" = 6 / 7 := by
  refine ⟨?_, by with_unfolding_all decide, ?_, by with_unfolding_all decide,
    by with_unfolding_all decide⟩
  · unfold stringSimilarity specStringSimilarity
    exact calculateStringSimilarity_eq (strToLower a) (strToLower b)
  · intro h
    have hne : a.data.length ≠ 0 := fun h0 => h (List.length_eq_zero.mp h0)
    unfold stringSimilarity
    rw [show strToLower "" = "" from rfl, calculateStringSimilarity_eq]
    have h1 : (strToLower a).length = a.data.length := List.length_map a.data Char.toLower
    have h2 : ("" : String).length = 0 := rfl
    have h3 : ("" : String).data = [] := rfl
    have h4 : (strToLower a).data.length = a.data.length := List.length_map a.data Char.toLower
    rw [h2, h3, lev_nil_right, h1, h4, Nat.max_zero, if_neg hne, sub_self, zero_div]

/-- C4 witness: the non-empty-versus-empty clause applied at `"netflix"`. -/
theorem c4_witness : stringSimilarity "netflix" "" = 0 :=
  (c4_stringSimilarity "netflix" "x").2.2.1 (by decide)

/-- C5: under the data-model invariants (positive amounts, ids unique), an
expense is similar to another precisely when the weighted score
`0.5·string + 0.3·amount + 0.2·category` reaches the threshold `0.8`, and
every expense is similar to itself. -/
theorem c5_isSimilar (a b : Expense) (ha : 0 < a.amount) (hb : 0 < b.amount)
    (hid : a.id = b.id → a = b) :
    (isSimilar a b = true ↔ 0.8 ≤ overallSimilarity a b) ∧
    ∀ e : Expense, isSimilar e e = true := by
  constructor
  · unfold isSimilar
    by_cases h : b.id = a.id
    · have hab : a = b := hid h.symm
      subst hab
      rw [if_pos h]
      simp only [true_iff]
      rw [overallSimilarity_self a ha]
      norm_num
    · rw [if_neg h]
      exact decide_eq_true_iff
  · intro e
    unfold isSimilar
    rw [if_pos rfl]

/-- C5 witness: reflexivity at `exA`, and the threshold equivalence at the
distinct pair `(exA, exB)`. -/
theorem c5_witness :
    isSimilar exA exA = true ∧ (isSimilar exA exB = true ↔ 0.8 ≤ overallSimilarity exA exB) :=
  ⟨(c5_isSimilar exA exA (by with_unfolding_all decide) (by with_unfolding_all decide)
      (fun _ => rfl)).2 exA,
    (c5_isSimilar exA exB (by with_unfolding_all decide) (by with_unfolding_all decide)
      (by with_unfolding_all decide)).1⟩

end Leftover

namespace Leftover

/-! ## Frequency classification -/

/-- C2: frequency classification uses exactly the fixed bands on the mean
interval — weekly on `[6,8]`, monthly on `[28,35]`, quarterly on `[85,95]`,
yearly on `[360,370]`, each with
`frequencyConfidence = max(0, 1 - |mean - center| / center)`; a mean outside
every band classifies to nothing; consistent 30-day intervals are `monthly`
with band confidence `1`, 7-day intervals are `weekly`, and a 45-day mean
yields `(none, 0)`. -/
theorem c2_determineFrequency (intervals : List Int) (h : intervals ≠ []) :
    (6 ≤ meanInterval intervals ∧ meanInterval intervals ≤ 8 →
      frequencyBand (meanInterval intervals) =
        some (.weekly, max 0 (1 - |meanInterval intervals - 7| / 7)) ∧
      (determineFrequency intervals).1 = some .weekly) ∧
    (28 ≤ meanInterval intervals ∧ meanInterval intervals ≤ 35 →
      frequencyBand (meanInterval intervals) =
        some (.monthly, max 0 (1 - |meanInterval intervals - 30| / 30)) ∧
      (determineFrequency intervals).1 = some .monthly) ∧
    (85 ≤ meanInterval intervals ∧ meanInterval intervals ≤ 95 →
      frequencyBand (meanInterval intervals) =
        some (.quarterly, max 0 (1 - |meanInterval intervals - 90| / 90)) ∧
      (determineFrequency intervals).1 = some .quarterly) ∧
    (360 ≤ meanInterval intervals ∧ meanInterval intervals ≤ 370 →
      frequencyBand (meanInterval intervals) =
        some (.yearly, max 0 (1 - |meanInterval intervals - 365| / 365)) ∧
      (determineFrequency intervals).1 = some .yearly) ∧
    (¬ (6 ≤ meanInterval intervals ∧ meanInterval intervals ≤ 8) →
      ¬ (28 ≤ meanInterval intervals ∧ meanInterval intervals ≤ 35) →
      ¬ (85 ≤ meanInterval intervals ∧ meanInterval intervals ≤ 95) →
      ¬ (360 ≤ meanInterval intervals ∧ meanInterval intervals ≤ 370) →
      determineFrequency intervals = (none, 0)) ∧
    frequencyBand 30 = some (.monthly, 1) ∧
    frequencyBand 7 = some (.weekly, 1) ∧
    determineFrequency [30, 30] = (some .monthly, 1) ∧
    determineFrequency [7, 7] = (some .weekly, 1) ∧
    determineFrequency [45] = (none, 0) := by
  have hlen : ¬ intervals.length = 0 := fun h0 => h (List.length_eq_zero.mp h0)
  refine ⟨?_, ?_, ?_, ?_, ?_, by with_unfolding_all decide, by with_unfolding_all decide,
    by with_unfolding_all decide, by with_unfolding_all decide, by with_unfolding_all decide⟩
  · rintro ⟨h1, h2⟩
    have hb : frequencyBand (meanInterval intervals) =
        some (.weekly, max 0 (1 - |meanInterval intervals - 7| / 7)) := by
      unfold frequencyBand
      rw [if_pos ⟨h1, h2⟩]
    refine ⟨hb, ?_⟩
    unfold determineFrequency
    rw [if_neg hlen, hb]
  · rintro ⟨h1, h2⟩
    have hb : frequencyBand (meanInterval intervals) =
        some (.monthly, max 0 (1 - |meanInterval intervals - 30| / 30)) := by
      unfold frequencyBand
      rw [if_neg (by rintro ⟨_, hc⟩; linarith), if_pos ⟨h1, h2⟩]
    refine ⟨hb, ?_⟩
    unfold determineFrequency
    rw [if_neg hlen, hb]
  · rintro ⟨h1, h2⟩
    have hb : frequencyBand (meanInterval intervals) =
        some (.quarterly, max 0 (1 - |meanInterval intervals - 90| / 90)) := by
      unfold frequencyBand
      rw [if_neg (by rintro ⟨_, hc⟩; linarith), if_neg (by rintro ⟨_, hc⟩; linarith),
        if_pos ⟨h1, h2⟩]
    refine ⟨hb, ?_⟩
    unfold determineFrequency
    rw [if_neg hlen, hb]
  · rintro ⟨h1, h2⟩
    have hb : frequencyBand (meanInterval intervals) =
        some (.yearly, max 0 (1 - |meanInterval intervals - 365| / 365)) := by
      unfold frequencyBand
      rw [if_neg (by rintro ⟨_, hc⟩; linarith), if_neg (by rintro ⟨_, hc⟩; linarith),
        if_neg (by rintro ⟨_, hc⟩; linarith), if_pos ⟨h1, h2⟩]
    refine ⟨hb, ?_⟩
    unfold determineFrequency
    rw [if_neg hlen, hb]
  · intro h1 h2 h3 h4
    have hb : frequencyBand (meanInterval intervals) = none := by
      unfold frequencyBand
      rw [if_neg h1, if_neg h2, if_neg h3, if_neg h4]
    unfold determineFrequency
    rw [if_neg hlen, hb]

/-- C2 witness: the theorem applied at the out-of-band interval list `[45]`. -/
theorem c2_witness : determineFrequency [45] = (none, 0) :=
  (c2_determineFrequency [45] (by decide)).2.2.2.2.2.2.2.2.2

end Leftover

namespace Leftover

/-! ## Detector: generic facts -/

theorem isSimilar_refl (e : Expense) : isSimilar e e = true := by
  unfold isSimilar
  rw [if_pos rfl]

theorem mem_sortByDate {x : Expense} {l : List Expense} : x ∈ sortByDate l ↔ x ∈ l :=
  (List.perm_insertionSort _ l).mem_iff

theorem mem_findSimilarExpenses_self {e : Expense} {allExpenses : List Expense}
    (he : e ∈ allExpenses) : e ∈ findSimilarExpenses e allExpenses :=
  List.mem_filter.mpr ⟨he, isSimilar_refl e⟩

theorem foldl_add_zero (l : List Int) (h : ∀ i ∈ l, i = 0) :
    ∀ init : ℚ, (l.foldl (fun (sum : ℚ) (i : Int) => sum + (i : ℚ)) init) = init := by
  induction l with
  | nil => intro init; rfl
  | cons x xs ih =>
    intro init
    have hx : x = 0 := h x (List.mem_cons_self _ _)
    rw [List.foldl_cons, hx]
    push_cast
    rw [add_zero]
    exact ih (fun i hi => h i (List.mem_cons_of_mem _ hi)) init

theorem mem_zipWith_tail {β : Type} (g : Expense → Expense → β) :
    ∀ (l : List Expense) (z : β), z ∈ List.zipWith g l l.tail →
      ∃ a, a ∈ l ∧ ∃ b, b ∈ l ∧ z = g a b := by
  intro l
  induction l with
  | nil => intro z hz; simp at hz
  | cons a t ih =>
    intro z hz
    cases t with
    | nil => simp at hz
    | cons b t' =>
      rw [List.tail_cons, List.zipWith_cons_cons] at hz
      rcases List.mem_cons.mp hz with rfl | hmem
      · exact ⟨a, by simp, b, by simp, rfl⟩
      · obtain ⟨x, hx, y, hy, rfl⟩ := ih z hmem
        exact ⟨x, List.mem_cons_of_mem a hx, y, List.mem_cons_of_mem a hy, rfl⟩

/-- Inversion of `analyzePattern` on success: the cluster had at least two
members, the mean interval fell in a band, the confidence is the source's
blend of consistency and band fit, and the linked expense ids are the
date-sorted cluster ids. -/
theorem analyzePattern_inv {e : Expense} {cluster : List Expense}
    {p : RecurringExpensePattern} (h : analyzePattern e cluster = some p) :
    2 ≤ cluster.length ∧
    p.expenseIds = (sortByDate cluster).map (·.id) ∧
    ∃ fc, frequencyBand (meanInterval (intervalsOf cluster)) = some (p.frequency, fc) ∧
      p.confidence = 0.6 * consistencyScore (intervalsOf cluster) + 0.4 * fc := by
  simp only [analyzePattern] at h
  by_cases hlen : cluster.length < 2
  · rw [if_pos hlen] at h
    exact absurd h (by simp)
  · rw [if_neg hlen] at h
    refine ⟨by omega, ?_⟩
    rcases hdf : determineFrequency (intervalsOf cluster) with ⟨fOpt, conf⟩
    rw [hdf] at h
    cases fOpt with
    | none => simp at h
    | some f =>
      simp only at h
      by_cases hc : conf < 0.6
      · rw [if_pos hc] at h
        simp at h
      · rw [if_neg hc] at h
        rcases hlast : (sortByDate cluster).getLast? with _ | lastE
        · rw [hlast] at h
          simp at h
        · rw [hlast] at h
          simp only [Option.some.injEq] at h
          subst h
          refine ⟨rfl, ?_⟩
          unfold determineFrequency at hdf
          by_cases h0 : (intervalsOf cluster).length = 0
          · rw [if_pos h0] at hdf
            simp at hdf
          · rw [if_neg h0] at hdf
            rcases hfb : frequencyBand (meanInterval (intervalsOf cluster)) with _ | ⟨f', fc⟩
            · rw [hfb] at hdf
              simp at hdf
            · rw [hfb] at hdf
              simp only [Prod.mk.injEq, Option.some.injEq] at hdf
              obtain ⟨hf, hconf⟩ := hdf
              subst hf
              refine ⟨fc, rfl, ?_⟩
              show conf = 0.6 * consistencyScore (intervalsOf cluster) + 0.4 * fc
              rw [← hconf]
              ring

/-- `analyzePattern` fails on a cluster whose dates are all equal: every
interval is `0`, the mean is `0`, and no band contains `0`. -/
theorem analyzePattern_same_date (e : Expense) (cluster : List Expense) (d : CalDate)
    (hd : ∀ x ∈ cluster, x.date = d) : analyzePattern e cluster = none := by
  simp only [analyzePattern]
  by_cases hlen : cluster.length < 2
  · rw [if_pos hlen]
  · rw [if_neg hlen]
    have hint : ∀ i ∈ intervalsOf cluster, i = 0 := by
      intro i hi
      unfold intervalsOf at hi
      obtain ⟨a, ha, b, hb, rfl⟩ := mem_zipWith_tail _ _ _ hi
      rw [hd a (mem_sortByDate.mp ha), hd b (mem_sortByDate.mp hb), sub_self]
    have hmean : meanInterval (intervalsOf cluster) = 0 := by
      unfold meanInterval
      rw [foldl_add_zero _ hint 0, zero_div]
    have hdf : determineFrequency (intervalsOf cluster) = (none, 0) := by
      unfold determineFrequency
      by_cases h0 : (intervalsOf cluster).length = 0
      · rw [if_pos h0]
      · rw [if_neg h0]
        have hfb : frequencyBand (meanInterval (intervalsOf cluster)) = none := by
          rw [hmean]
          unfold frequencyBand
          norm_num
        rw [hfb]
    rw [hdf]

/-- `analyzePattern` fails whenever `determineFrequency` assigns no band. -/
theorem analyzePattern_none_of_noband (e : Expense) (cluster : List Expense)
    (h : (determineFrequency (intervalsOf cluster)).1 = none) :
    analyzePattern e cluster = none := by
  simp only [analyzePattern]
  by_cases hlen : cluster.length < 2
  · rw [if_pos hlen]
  · rw [if_neg hlen]
    rcases hdf : determineFrequency (intervalsOf cluster) with ⟨fOpt, conf⟩
    rw [hdf] at h
    simp only at h
    subst h
    rfl

/-- A seed whose cluster yields no pattern is skipped and the scan continues
with the remaining expenses. -/
theorem detectLoop_skip (allExpenses rest : List Expense) (proc : List String)
    (e : Expense) (h : analyzePattern e (findSimilarExpenses e allExpenses) = none) :
    detectLoop allExpenses (e :: rest) proc = detectLoop allExpenses rest proc := by
  simp only [detectLoop]
  by_cases hmem : e.id ∈ proc
  · rw [if_pos hmem]
  · rw [if_neg hmem]
    by_cases h2 : 2 ≤ (findSimilarExpenses e allExpenses).length
    · rw [if_pos h2, h]
    · rw [if_neg h2]

end Leftover

namespace Leftover

/-! ## Detector: the scan loop -/

/-- Every pattern produced by the scan loop was accepted from some seed's
cluster: the cluster reached `MIN_OCCURRENCES`, the analysis succeeded, and
the confidence check passed. -/
theorem detectLoop_mem {allExpenses : List Expense} :
    ∀ {l : List Expense} {proc : List String} {p : RecurringExpensePattern},
      p ∈ detectLoop allExpenses l proc →
      ∃ e, 2 ≤ (findSimilarExpenses e allExpenses).length ∧
        analyzePattern e (findSimilarExpenses e allExpenses) = some p ∧
        0.6 ≤ p.confidence := by
  intro l
  induction l with
  | nil =>
    intro proc p hp
    simp [detectLoop] at hp
  | cons e rest ih =>
    intro proc p hp
    simp only [detectLoop] at hp
    by_cases hmem : e.id ∈ proc
    · rw [if_pos hmem] at hp
      exact ih hp
    · rw [if_neg hmem] at hp
      by_cases h2 : 2 ≤ (findSimilarExpenses e allExpenses).length
      · rw [if_pos h2] at hp
        rcases hpat : analyzePattern e (findSimilarExpenses e allExpenses) with _ | pat
        · simp only [hpat] at hp
          exact ih hp
        · simp only [hpat] at hp
          by_cases hconf : 0.6 ≤ pat.confidence
          · rw [if_pos hconf] at hp
            rcases List.mem_cons.mp hp with rfl | hmem'
            · exact ⟨e, h2, hpat, hconf⟩
            · exact ih hmem'
          · rw [if_neg hconf] at hp
            exact ih hp
      · rw [if_neg h2] at hp
        exact ih hp

/-- Invariant of the scan loop, in scan order: every produced pattern `q`
(preceded by the patterns `l₁`) was analyzed from the cluster of a seed `e`
whose id belongs to `q.expenseIds`, was unprocessed on entry, and appears in
no earlier pattern's `expenseIds`.  Full disjointness does **not** hold:
clusters of later seeds may re-use expenses already claimed by earlier
patterns. -/
theorem detectLoop_seed_fresh (allExpenses : List Expense) :
    ∀ (l : List Expense) (proc : List String),
      (∀ x ∈ l, x ∈ allExpenses) →
      ∀ (l₁ : List RecurringExpensePattern) (q : RecurringExpensePattern)
        (l₂ : List RecurringExpensePattern),
        detectLoop allExpenses l proc = l₁ ++ q :: l₂ →
        ∃ e, 2 ≤ (findSimilarExpenses e allExpenses).length ∧
          analyzePattern e (findSimilarExpenses e allExpenses) = some q ∧
          e.id ∈ q.expenseIds ∧ e.id ∉ proc ∧ ∀ p ∈ l₁, e.id ∉ p.expenseIds := by
  intro l
  induction l with
  | nil =>
    intro proc hsub l₁ q l₂ h
    simp only [detectLoop] at h
    exact absurd h.symm (by simp)
  | cons e rest ih =>
    intro proc hsub l₁ q l₂ h
    have hsub' : ∀ x ∈ rest, x ∈ allExpenses := fun x hx => hsub x (List.mem_cons_of_mem _ hx)
    by_cases hmem : e.id ∈ proc
    · rw [show detectLoop allExpenses (e :: rest) proc = detectLoop allExpenses rest proc by
        simp only [detectLoop]; rw [if_pos hmem]] at h
      exact ih proc hsub' l₁ q l₂ h
    · by_cases h2 : 2 ≤ (findSimilarExpenses e allExpenses).length
      · rcases hpat : analyzePattern e (findSimilarExpenses e allExpenses) with _ | pat
        · rw [detectLoop_skip _ _ _ _ hpat] at h
          exact ih proc hsub' l₁ q l₂ h
        · by_cases hconf : 0.6 ≤ pat.confidence
          · rw [show detectLoop allExpenses (e :: rest) proc =
                pat :: detectLoop allExpenses rest
                  (proc ++ (findSimilarExpenses e allExpenses).map (·.id)) by
              simp only [detectLoop]
              rw [if_neg hmem, if_pos h2]
              simp only [hpat]
              rw [if_pos hconf]] at h
            obtain ⟨_, hids, _⟩ := analyzePattern_inv hpat
            have heid : e.id ∈ pat.expenseIds := by
              rw [hids]
              exact List.mem_map.mpr
                ⟨e, mem_sortByDate.mpr
                  (mem_findSimilarExpenses_self (hsub e (List.mem_cons_self _ _))), rfl⟩
            have hsubids : ∀ i ∈ pat.expenseIds,
                i ∈ proc ++ (findSimilarExpenses e allExpenses).map (·.id) := by
              intro i hi
              rw [hids] at hi
              obtain ⟨x, hx, rfl⟩ := List.mem_map.mp hi
              exact List.mem_append_right _ (List.mem_map.mpr ⟨x, mem_sortByDate.mp hx, rfl⟩)
            cases l₁ with
            | nil =>
              simp only [List.nil_append] at h
              injection h with hq hl₂
              subst hq
              exact ⟨e, h2, hpat, heid, hmem, by simp⟩
            | cons p0 l₁' =>
              simp only [List.cons_append] at h
              injection h with hp0 hT
              subst hp0
              obtain ⟨e', he2, hepat, hemem, heproc, heforall⟩ :=
                ih (proc ++ (findSimilarExpenses e allExpenses).map (·.id)) hsub' l₁' q l₂ hT
              refine ⟨e', he2, hepat, hemem, ?_, ?_⟩
              · exact fun hin => heproc (List.mem_append_left _ hin)
              · intro p hp
                rcases List.mem_cons.mp hp with rfl | hp'
                · exact fun hin => heproc (hsubids _ hin)
                · exact heforall p hp'
          · rw [show detectLoop allExpenses (e :: rest) proc =
                detectLoop allExpenses rest proc by
              simp only [detectLoop]
              rw [if_neg hmem, if_pos h2]
              simp only [hpat]
              rw [if_neg hconf]] at h
            exact ih proc hsub' l₁ q l₂ h
      · rw [show detectLoop allExpenses (e :: rest) proc =
            detectLoop allExpenses rest proc by
          simp only [detectLoop]; rw [if_neg hmem, if_neg h2]] at h
        exact ih proc hsub' l₁ q l₂ h

theorem detectPatterns_sorted (expenses : List Expense) :
    (detectPatterns expenses).Pairwise (fun p q => q.confidence ≤ p.confidence) := by
  haveI : IsTotal RecurringExpensePattern (fun p q => q.confidence ≤ p.confidence) :=
    ⟨fun a b => le_total b.confidence a.confidence⟩
  haveI : IsTrans RecurringExpensePattern (fun p q => q.confidence ≤ p.confidence) :=
    ⟨fun _ _ _ hab hbc => le_trans hbc hab⟩
  unfold detectPatterns
  exact List.sorted_insertionSort _ _

theorem mem_detectPatterns {p : RecurringExpensePattern} {expenses : List Expense} :
    p ∈ detectPatterns expenses ↔
      p ∈ detectLoop (sortByDate expenses) (sortByDate expenses) [] := by
  unfold detectPatterns
  exact (List.perm_insertionSort _ _).mem_iff

end Leftover

namespace Leftover

/-- C1: every pattern returned by `detectPatterns` was accepted from a
cluster of at least `MIN_OCCURRENCES = 2` similar expenses, carries a
confidence of at least `0.6` computed as
`0.6 * consistencyScore + 0.4 * frequencyConfidence`, and the returned list
is sorted by descending confidence. -/
theorem c1_detectPatterns (expenses : List Expense) :
    (detectPatterns expenses).Pairwise (fun p q => q.confidence ≤ p.confidence) ∧
    ∀ p ∈ detectPatterns expenses,
      0.6 ≤ p.confidence ∧
      ∃ e, 2 ≤ (findSimilarExpenses e (sortByDate expenses)).length ∧
        analyzePattern e (findSimilarExpenses e (sortByDate expenses)) = some p ∧
        ∃ fc, frequencyBand
            (meanInterval (intervalsOf (findSimilarExpenses e (sortByDate expenses)))) =
            some (p.frequency, fc) ∧
          p.confidence =
            0.6 * consistencyScore (intervalsOf (findSimilarExpenses e (sortByDate expenses)))
              + 0.4 * fc := by
  constructor
  · exact detectPatterns_sorted expenses
  · intro p hp
    obtain ⟨e, h2, hA, hC⟩ := detectLoop_mem (mem_detectPatterns.mp hp)
    obtain ⟨_, _, fc, hfb, hconf⟩ := analyzePattern_inv hA
    exact ⟨hC, e, h2, hA, fc, hfb, hconf⟩

set_option maxRecDepth 100000 in
/-- C1 witness: the theorem applied to the pattern that the three-expense
history `[exA, exB, exC]` produces for the seed `exA`. -/
theorem c1_witness : 0.6 ≤ exPatternAB.confidence :=
  ((c1_detectPatterns [exA, exB, exC]).2 exPatternAB (by with_unfolding_all decide)).1

set_option maxRecDepth 100000 in
/-- C6 (counterexample): the claim that distinct returned patterns never
share an expense id fails — on the history `[exA, exB, exC]` the detector
returns the two patterns with `expenseIds = ["a", "b"]` and `["b", "c"]`,
which share `"b"`: the processed set only prevents re-use of expenses as
seeds, not re-membership of later clusters. -/
theorem c6_counterexample :
    ∃ p ∈ detectPatterns [exA, exB, exC], ∃ q ∈ detectPatterns [exA, exB, exC],
      p ≠ q ∧ ∃ i, i ∈ p.expenseIds ∧ i ∈ q.expenseIds := by
  with_unfolding_all decide

/-- C6 (amended): the returned clusters need not be disjoint — a later seed's
cluster may re-use expenses already attributed to an earlier pattern.  What
the processed set does guarantee is that the returned list is a permutation
of the scan-order list, in which every pattern was produced from a seed
whose single id lies in its own `expenseIds` and in **no** earlier pattern's
`expenseIds`. -/
theorem c6_detectPatterns_overlap (expenses : List Expense) :
    (detectPatterns expenses).Perm
      (detectLoop (sortByDate expenses) (sortByDate expenses) []) ∧
    ∀ (l₁ : List RecurringExpensePattern) (q : RecurringExpensePattern)
      (l₂ : List RecurringExpensePattern),
      detectLoop (sortByDate expenses) (sortByDate expenses) [] = l₁ ++ q :: l₂ →
      ∃ e, 2 ≤ (findSimilarExpenses e (sortByDate expenses)).length ∧
        analyzePattern e (findSimilarExpenses e (sortByDate expenses)) = some q ∧
        e.id ∈ q.expenseIds ∧ ∀ p ∈ l₁, e.id ∉ p.expenseIds := by
  constructor
  · unfold detectPatterns
    exact List.perm_insertionSort _ _
  · intro l₁ q l₂ h
    obtain ⟨e, h2, hpat, hmem, _, hforall⟩ :=
      detectLoop_seed_fresh (sortByDate expenses) (sortByDate expenses) []
        (fun x hx => hx) l₁ q l₂ h
    exact ⟨e, h2, hpat, hmem, hforall⟩

set_option maxRecDepth 100000 in
/-- C6 witness: the amended theorem applied to the concrete scan
`detectLoop` of `[exA, exB, exC]`, which is `[exPatternAB, exPatternBC]`:
the second pattern's seed id `"c"` lies in `["b", "c"]` but not in the first
pattern's `["a", "b"]`, even though the two patterns share `"b"`. -/
theorem c6_witness :
    ∃ e, 2 ≤ (findSimilarExpenses e (sortByDate [exA, exB, exC])).length ∧
      analyzePattern e (findSimilarExpenses e (sortByDate [exA, exB, exC])) =
        some exPatternBC ∧
      e.id ∈ exPatternBC.expenseIds ∧ ∀ p ∈ [exPatternAB], e.id ∉ p.expenseIds :=
  (c6_detectPatterns_overlap [exA, exB, exC]).2 [exPatternAB] exPatternBC []
    (by with_unfolding_all decide)

/-- C7: detection is total and degenerate inputs are normal "no pattern"
outcomes — the empty history yields the empty list, an all-same-date cluster
and a cluster whose mean interval matches no band are rejected by the
analyzer, and a seed whose analysis fails is simply skipped, the scan
continuing with the remaining expenses. -/
theorem c7_degenerate (e : Expense) (cluster allExpenses rest : List Expense)
    (proc : List String) (d : CalDate) :
    detectPatterns [] = [] ∧
    ((∀ x ∈ cluster, x.date = d) → analyzePattern e cluster = none) ∧
    ((determineFrequency (intervalsOf cluster)).1 = none → analyzePattern e cluster = none) ∧
    (analyzePattern e (findSimilarExpenses e allExpenses) = none →
      detectLoop allExpenses (e :: rest) proc = detectLoop allExpenses rest proc) :=
  ⟨rfl, analyzePattern_same_date e cluster d, analyzePattern_none_of_noband e cluster,
    detectLoop_skip allExpenses rest proc e⟩

/-- C7 witness: the same-date clause applied to the two-expense cluster
`[exS1, exS2]`, both dated 2024-01-05. -/
theorem c7_witness : analyzePattern exS1 [exS1, exS2] = none :=
  (c7_degenerate exS1 [exS1, exS2] [] [] [] ⟨2024, 0, 5⟩).2.1 (by decide)

end Leftover

namespace Leftover

/-! ## Upcoming projection, merge, and lifecycle update -/

set_option maxRecDepth 100000 in
/-- C8: `upcoming` keeps exactly the confirmed patterns, each paired with
`daysUntilDue = ⌈nextExpectedDate - today⌉` (in days) and
`isOverdue = (daysUntilDue < 0)`, sorted ascending by `daysUntilDue`; on the
concrete example the pattern due 3 days ago comes first with `(-3, true)`,
before the one due in 5 days with `(5, false)`, and the unconfirmed pattern
is dropped. -/
theorem c8_getUpcomingRecurringExpenses (patterns : List RecurringExpensePattern)
    (today : ℚ) :
    (getUpcomingRecurringExpenses patterns today).Perm
      ((patterns.filter (·.isConfirmed)).map (toUpcomingEntry today)) ∧
    (getUpcomingRecurringExpenses patterns today).Pairwise
      (fun x y => x.daysUntilDue ≤ y.daysUntilDue) ∧
    (∀ x ∈ getUpcomingRecurringExpenses patterns today,
      x.pattern.isConfirmed = true ∧
      x.daysUntilDue = ⌈(dateDays x.pattern.nextExpectedDate : ℚ) - today⌉ ∧
      x.isOverdue = decide (x.daysUntilDue < 0)) ∧
    (∀ p ∈ patterns, p.isConfirmed = true →
      toUpcomingEntry today p ∈ getUpcomingRecurringExpenses patterns today) ∧
    getUpcomingRecurringExpenses [pFuture, pUnconfirmed, pOverdue] c8Today =
      [⟨pOverdue, -3, true⟩, ⟨pFuture, 5, false⟩] := by
  refine ⟨?_, ?_, ?_, ?_, by with_unfolding_all decide⟩
  · exact List.perm_insertionSort _ _
  · haveI : IsTotal UpcomingEntry (fun x y => x.daysUntilDue ≤ y.daysUntilDue) :=
      ⟨fun a b => le_total a.daysUntilDue b.daysUntilDue⟩
    haveI : IsTrans UpcomingEntry (fun x y => x.daysUntilDue ≤ y.daysUntilDue) :=
      ⟨fun _ _ _ hab hbc => le_trans hab hbc⟩
    exact List.sorted_insertionSort _ _
  · intro x hx
    have hx' : x ∈ (patterns.filter (·.isConfirmed)).map (toUpcomingEntry today) :=
      (List.perm_insertionSort _ _).mem_iff.mp hx
    obtain ⟨p, hp, rfl⟩ := List.mem_map.mp hx'
    exact ⟨(List.mem_filter.mp hp).2, rfl, rfl⟩
  · intro p hp hc
    apply (List.perm_insertionSort _ _).mem_iff.mpr
    exact List.mem_map.mpr ⟨p, List.mem_filter.mpr ⟨hp, hc⟩, rfl⟩

set_option maxRecDepth 100000 in
/-- C8 witness: the membership clause applied to the confirmed overdue
pattern of the concrete example. -/
theorem c8_witness :
    toUpcomingEntry c8Today pOverdue ∈
      getUpcomingRecurringExpenses [pFuture, pUnconfirmed, pOverdue] c8Today :=
  (c8_getUpcomingRecurringExpenses [pFuture, pUnconfirmed, pOverdue] c8Today).2.2.2.1
    pOverdue (by with_unfolding_all decide) (by decide)

/-- Unrolled form of the merge loop: the accumulated list is the initial one
followed by the detected patterns that duplicate no existing pattern. -/
theorem mergeDetected_foldl (existingPatterns : List RecurringExpensePattern) :
    ∀ (detectedPatterns acc : List RecurringExpensePattern),
      detectedPatterns.foldl
        (fun allPatterns newPattern =>
          if existingPatterns.any (fun ex => isDuplicate ex newPattern) then allPatterns
          else allPatterns ++ [newPattern]) acc =
      acc ++ detectedPatterns.filter
        (fun n => ! existingPatterns.any (fun ex => isDuplicate ex n)) := by
  intro detectedPatterns
  induction detectedPatterns with
  | nil => intro acc; simp
  | cons n ns ih =>
    intro acc
    rw [List.foldl_cons, List.filter_cons]
    by_cases h : existingPatterns.any (fun ex => isDuplicate ex n) = true
    · rw [if_pos h, ih acc]
      simp [h]
    · have h' : existingPatterns.any (fun ex => isDuplicate ex n) = false :=
        Bool.eq_false_iff.mpr h
      rw [if_neg h, ih (acc ++ [n])]
      simp [h']

set_option maxRecDepth 100000 in
/-- C9: merging detected patterns into existing ones appends exactly the
detected patterns that match no existing pattern on description, category and
average amount within `1.0`; the existing patterns keep their positions, and
the freshly detected Netflix pattern at `15.50` is judged a duplicate of the
stored one at `15.99`, leaving the merged list unchanged. -/
theorem c9_mergeDetected (existingPatterns detectedPatterns : List RecurringExpensePattern) :
    mergeDetected existingPatterns detectedPatterns =
      existingPatterns ++ detectedPatterns.filter
        (fun n => ! existingPatterns.any (fun ex => isDuplicate ex n)) ∧
    (∀ n, existingPatterns.any (fun ex => isDuplicate ex n) = true ↔
      ∃ ex ∈ existingPatterns, ex.description = n.description ∧ ex.category = n.category ∧
        |ex.averageAmount - n.averageAmount| < 1) ∧
    (mergeDetected existingPatterns detectedPatterns).take existingPatterns.length =
      existingPatterns ∧
    mergeDetected [netflixExisting] [netflixDetected] = [netflixExisting] := by
  have hmain : mergeDetected existingPatterns detectedPatterns =
      existingPatterns ++ detectedPatterns.filter
        (fun n => ! existingPatterns.any (fun ex => isDuplicate ex n)) :=
    mergeDetected_foldl existingPatterns detectedPatterns existingPatterns
  refine ⟨hmain, ?_, ?_, by with_unfolding_all decide⟩
  · intro n
    rw [List.any_eq_true]
    constructor
    · rintro ⟨ex, hex, hdup⟩
      simp only [isDuplicate, Bool.and_eq_true, decide_eq_true_eq] at hdup
      exact ⟨ex, hex, hdup.1.1, hdup.1.2, hdup.2⟩
    · rintro ⟨ex, hex, h1, h2, h3⟩
      refine ⟨ex, hex, ?_⟩
      simp only [isDuplicate, Bool.and_eq_true, decide_eq_true_eq]
      exact ⟨⟨h1, h2⟩, h3⟩
  · rw [hmain]
    exact List.take_left _ _

/-- Absent-id case of `updatePatternAfterExpense`: the stored list is
unchanged. -/
theorem updatePattern_not_found :
    ∀ (stored : List RecurringExpensePattern) (patternId : String) (d : CalDate),
      (∀ q ∈ stored, q.id ≠ patternId) →
      updatePatternAfterExpense stored patternId d = stored := by
  intro stored
  induction stored with
  | nil => intro pid d h; rfl
  | cons q qs ih =>
    intro pid d h
    simp only [updatePatternAfterExpense]
    rw [if_neg (h q (List.mem_cons_self _ _)),
      ih pid d (fun r hr => h r (List.mem_cons_of_mem _ hr))]

/-- Present-id case of `updatePatternAfterExpense`: the first pattern with
the given id is advanced, everything else is untouched. -/
theorem updatePattern_found :
    ∀ (l₁ l₂ : List RecurringExpensePattern) (p : RecurringExpensePattern)
      (patternId : String) (d : CalDate),
      p.id = patternId → (∀ q ∈ l₁, q.id ≠ patternId) →
      updatePatternAfterExpense (l₁ ++ p :: l₂) patternId d =
        l₁ ++ advancePattern p d :: l₂ := by
  intro l₁
  induction l₁ with
  | nil =>
    intro l₂ p pid d hp hq
    simp only [List.nil_append, updatePatternAfterExpense]
    rw [if_pos hp]
  | cons q qs ih =>
    intro l₂ p pid d hp hq
    simp only [List.cons_append, updatePatternAfterExpense, List.append_eq]
    rw [if_neg (hq q (List.mem_cons_self _ _)),
      ih l₂ p pid d hp (fun r hr => hq r (List.mem_cons_of_mem _ hr))]

/-- C10: advancing a stored pattern after a new expense updates only the
first pattern carrying the id — its `lastOccurrence` becomes the new expense
date and its `nextExpectedDate` is re-derived by one cadence step of its
stored frequency — while its remaining fields and all other stored patterns
are unchanged; an absent id leaves the stored list untouched. -/
theorem c10_updatePatternAfterExpense (stored l₁ l₂ : List RecurringExpensePattern)
    (p : RecurringExpensePattern) (patternId : String) (d : CalDate) :
    ((∀ q ∈ stored, q.id ≠ patternId) →
      updatePatternAfterExpense stored patternId d = stored) ∧
    (stored = l₁ ++ p :: l₂ → p.id = patternId → (∀ q ∈ l₁, q.id ≠ patternId) →
      updatePatternAfterExpense stored patternId d = l₁ ++ advancePattern p d :: l₂) ∧
    ((advancePattern p d).id = p.id ∧
      (advancePattern p d).description = p.description ∧
      (advancePattern p d).category = p.category ∧
      (advancePattern p d).averageAmount = p.averageAmount ∧
      (advancePattern p d).frequency = p.frequency ∧
      (advancePattern p d).confidence = p.confidence ∧
      (advancePattern p d).expenseIds = p.expenseIds ∧
      (advancePattern p d).isConfirmed = p.isConfirmed ∧
      (advancePattern p d).lastOccurrence = d ∧
      (advancePattern p d).nextExpectedDate = calculateNextExpectedDate d p.frequency) := by
  refine ⟨updatePattern_not_found stored patternId d, ?_,
    rfl, rfl, rfl, rfl, rfl, rfl, rfl, rfl, rfl, rfl⟩
  intro heq hp hq
  rw [heq]
  exact updatePattern_found l₁ l₂ p patternId d hp hq

set_option maxRecDepth 100000 in
/-- C10 witness: updating the stored list `[mgrKeep, mgrTarget]` at id
`"p2"` with the new date 2024-02-15 advances only `mgrTarget`, whose next
expected date becomes 2024-03-15 (one month later). -/
theorem c10_witness :
    updatePatternAfterExpense [mgrKeep, mgrTarget] "p2" ⟨2024, 1, 15⟩ =
      [mgrKeep, ⟨"p2", "Netflix", "entertainment", 15.99, .monthly, 0.95, ["n1", "n2"],
        ⟨2024, 1, 15⟩, ⟨2024, 2, 15⟩, true⟩] := by
  have h := (c10_updatePatternAfterExpense [mgrKeep, mgrTarget] [mgrKeep] [] mgrTarget "p2"
    ⟨2024, 1, 15⟩).2.1 rfl rfl (by decide)
  rw [h]
  with_unfolding_all decide

end Leftover
